import Mathlib

/-!
Shallow embedding of the task-management command interpreter of
`main.py`: the date normalization inside `add_task`, the three tool
functions `add_task`, `list_tasks`, `complete_task` (with the external
Todoist store modelled as an oracle whose calls either return a value or
raise, i.e. an `Except String` result), and one step of the interactive
session loop in `main`.

String primitives (`str.lower`, `str.strip`, `str.split`) are modelled
character-exactly for the ASCII range over `String.data`.
-/

namespace TodoistAi

/-- Python `str.lower()` on one character, ASCII range: `A`–`Z` maps to
`a`–`z`, everything else is fixed. -/
def lowerChar (c : Char) : Char :=
  if 65 ≤ c.toNat ∧ c.toNat ≤ 90 then Char.ofNat (c.toNat + 32) else c

/-- Python `str.lower()`, ASCII range. -/
def lowerStr (s : String) : String := ⟨s.data.map lowerChar⟩

/-- The ASCII whitespace characters stripped by Python's default
`str.strip()`: space, tab, newline, carriage return, vertical tab, form
feed. -/
def pySpace (c : Char) : Bool :=
  c.toNat = 32 || c.toNat = 9 || c.toNat = 10 ||
  c.toNat = 13 || c.toNat = 11 || c.toNat = 12

/-- Python `str.strip()` (default whitespace, ASCII range): drop leading
and trailing whitespace. -/
def stripStr (s : String) : String :=
  ⟨(((s.data.dropWhile pySpace).reverse.dropWhile pySpace).reverse)⟩

/-- Python `s.split(sep)` for a one-character separator, over the
character list: split at every occurrence of `sep`; the result is never
empty and keeps empty pieces (`"".split('T') = [""]`). -/
def splitOnC (sep : Char) : List Char → List (List Char)
  | [] => [[]]
  | c :: rest =>
    let r := splitOnC sep rest
    if c = sep then [] :: r
    else
      match r with
      | [] => [[c]]
      | p :: ps => (c :: p) :: ps

/-- First code points of the contiguous runs of ten Unicode decimal
digits (general category Nd, Unicode 14.0, the table CPython 3.11's
`re` module and `int()` consult): every Nd run is ten consecutive code
points carrying the digit values 0–9 in order, starting at these code
points. -/
def ndRangeStarts : List Nat :=
  [48, 1632, 1776, 1984, 2406, 2534, 2662, 2790, 2918, 3046, 3174, 3302,
   3430, 3558, 3664, 3792, 3872, 4160, 4240, 6112, 6160, 6470, 6608, 6784,
   6800, 6992, 7088, 7232, 7248, 42528, 43216, 43264, 43472, 43504, 43600,
   44016, 65296, 66720, 68912, 69734, 69872, 69942, 70096, 70384, 70736,
   70864, 71248, 71360, 71472, 71904, 72016, 72784, 73040, 73120, 92768,
   92864, 93008, 120782, 120792, 120802, 120812, 120822, 123200, 123632,
   125264, 130032]

/-- Decimal value of a character when it is a Unicode decimal digit
(category Nd), else `none`. -/
def digitVal? (c : Char) : Option Nat :=
  match ndRangeStarts.find? (fun s => s ≤ c.toNat && c.toNat ≤ s + 9) with
  | some s => some (c.toNat - s)
  | none => none

/-- CPython regex `\d` as compiled by `strptime` (no `re.ASCII` flag):
any Unicode decimal digit. -/
def isNd (c : Char) : Bool := (digitVal? c).isSome

/-- The ASCII character class `[1-9]` of CPython's strptime field
patterns. -/
def asciiNonZero (c : Char) : Bool := 49 ≤ c.toNat && c.toNat ≤ 57

/-- Python `int()` on a matched strptime field: leading whitespace (the
space-padded `%d` alternative) is stripped and each Unicode decimal
digit contributes its decimal value. -/
def intVal (l : List Char) : Nat :=
  (l.dropWhile (fun c => c = ' ')).foldl
    (fun a c => a * 10 + ((digitVal? c).getD 0)) 0

/-- The day field of CPython's `strptime` format `%d`: the regex
`3[0-1]|[1-2]\d|0[1-9]|[1-9]| [1-9]`, where the bracket classes are
ASCII but `\d` matches any Unicode decimal digit, and a space-padded
single digit is accepted. Because the field is followed by the literal
`-` in the full pattern, a token matches exactly when one alternative
consumes it whole. -/
def dayTok (l : List Char) : Bool :=
  match l with
  | [a, b] =>
    (a = '3' && (b = '0' || b = '1')) ||
    ((a = '1' || a = '2') && isNd b) ||
    (a = '0' && asciiNonZero b) ||
    (a = ' ' && asciiNonZero b)
  | [a] => asciiNonZero a
  | _ => false

/-- The month field of CPython's `strptime` format `%m`: the regex
`1[0-2]|0[1-9]|[1-9]`, all-ASCII classes (no `\d`, no space padding). -/
def monthTok (l : List Char) : Bool :=
  match l with
  | [a, b] =>
    (a = '1' && (b = '0' || b = '1' || b = '2')) ||
    (a = '0' && asciiNonZero b)
  | [a] => asciiNonZero a
  | _ => false

/-- The year field of CPython's `strptime` format `%Y`: the regex
`\d\d\d\d`, exactly four Unicode decimal digits. -/
def yearTok (l : List Char) : Bool :=
  match l with
  | [a, b, c, d] => isNd a && isNd b && isNd c && isNd d
  | _ => false

/-- Gregorian leap-year rule used by Python's `datetime`. -/
def isLeap (y : Nat) : Bool :=
  y % 4 = 0 && (y % 100 ≠ 0 || y % 400 = 0)

/-- Number of days in a month, as validated by Python's `datetime`
constructor. -/
def daysInMonth (y m : Nat) : Nat :=
  if m = 2 then (if isLeap y then 29 else 28)
  else if m = 4 || m = 6 || m = 9 || m = 11 then 30
  else 31

/-- Models `datetime.strptime(s, '%d-%m-%Y')` succeeding (no
`ValueError`): no character the fields `%d`, `%m`, `%Y` can match is the
literal separator `-`, so a full match of the compiled pattern is
exactly a split of the whole string on `-` into three pieces each
consumed whole by its field regex, after which the `datetime`
constructor additionally requires the year to be at least 1 (`MINYEAR`)
and the day to exist in that month of that year. The field shapes bound
the day by 31 and the month by 12 already. -/
def dmyOk (s : String) : Bool :=
  match splitOnC '-' s.data with
  | [d, m, y] =>
    dayTok d && monthTok m && yearTok y &&
    1 ≤ intVal y &&
    intVal d ≤ daysInMonth (intVal y) (intVal m)
  | _ => false

/-- The due-date normalization of `add_task` (main.py lines 64–76),
factored out as a function of the optional raw input. `none` models
Python `None`, and the empty string is falsy in Python, so both leave
`due_string = None`; otherwise a case-insensitive match against
`'today'`/`'tomorrow'` yields that lowercase keyword, a string accepted
by `strptime(_, '%d-%m-%Y')` passes through unchanged, and everything
else degrades to `none` (the local `except ValueError: pass`). The
function is total: no exception escapes. -/
def normalize : Option String → Option String
  | none => none
  | some s =>
    if s = "" then none
    else if lowerStr s = "today" then some "today"
    else if lowerStr s = "tomorrow" then some "tomorrow"
    else if dmyOk s then some s
    else none

/-- The due field of a Todoist task as consumed by `main.py`: a date
string and an optional date-time string (the latter carries a `T`
separator in the store's wire format, e.g. `"2025-12-25T14:30:00"`). -/
structure Due where
  date : String
  datetime : Option String
deriving DecidableEq

/-- A task as consumed by `main.py`: opaque store identifier, content
text, optional due field. -/
structure Task where
  id : String
  content : String
  due : Option Due
deriving DecidableEq

/-- The external Todoist store as an oracle for one call each of the
three API methods used by `main.py`. A `.error e` result models the call
raising an exception whose `str(...)` is `e`. -/
structure Store where
  addTask : String → Option String → Int → Except String Task
  getTasks : Except String (List Task)
  closeTask : String → Except String Unit

/-- The `add_task` tool (main.py lines 53–86): normalize the due date,
submit to the store, and format the store's answer; any store exception
is caught and rendered as an error string. -/
def add_task (store : Store) (task_description : String)
    (due_date : Option String) (priority : Int := 1) : String :=
  let due_string := normalize due_date
  match store.addTask task_description due_string priority with
  | .ok task =>
    "✅ Task added: " ++ task.content ++ " (Due: " ++
      (match task.due with
       | some d => d.date
       | none => "No due date") ++ ")"
  | .error e => "❌ Error adding task: " ++ e

/-- The due-date suffix of one listing line (main.py line 98):
`f" (Due: {task.due.date}" + (f" {task.due.datetime.split('T')[1][:5]}"
if task.due.datetime else '') + ")" if task.due else ""`. The index
`[1]` raises `IndexError` when the date-time string contains no `T`;
the empty date-time string is falsy in Python and skips the time part. -/
def renderDue : Option Due → Except String String
  | none => .ok ""
  | some d =>
    match d.datetime with
    | some dt =>
      if dt = "" then .ok (" (Due: " ++ d.date ++ ")")
      else
        match (splitOnC 'T' dt.data).get? 1 with
        | none => .error "list index out of range"
        | some t => .ok (" (Due: " ++ d.date ++ " " ++ (⟨t.take 5⟩ : String) ++ ")")
    | none => .ok (" (Due: " ++ d.date ++ ")")

/-- The listing loop of `list_tasks` (main.py lines 97–99): numbered
lines built by `enumerate(tasks, i)`; the first exception aborts the
whole loop. -/
def renderLines (i : Nat) : List Task → Except String (List String)
  | [] => .ok []
  | t :: rest => do
    let d ← renderDue t.due
    let r ← renderLines (i + 1) rest
    .ok ((toString i ++ ". " ++ t.content ++ d) :: r)

/-- The `list_tasks` tool (main.py lines 88–103): fetch all active
tasks; an empty fetch yields the literal no-tasks message; otherwise a
header plus numbered lines joined by newlines; any exception (from the
fetch or from the rendering loop) is caught and rendered as an error
string. -/
def list_tasks (store : Store) : String :=
  match store.getTasks with
  | .error e => "❌ Error fetching tasks: " ++ e
  | .ok tasks =>
    if tasks = [] then "No tasks found in your Todoist account."
    else
      match renderLines 1 tasks with
      | .error e => "❌ Error fetching tasks: " ++ e
      | .ok lines => String.intercalate "\n" ("📋 Your tasks:" :: lines)

/-- The `complete_task` tool (main.py lines 105–120): re-fetch the
active tasks; when `1 <= task_id <= len(tasks)` close the task at that
1-based position by its store identifier; otherwise report the valid
range of the current fetch; any store exception is caught and rendered
as an error string. The second component records the store identifiers
for which a close call was issued. -/
def complete_task (store : Store) (task_id : Int) : String × List String :=
  match store.getTasks with
  | .error e => ("❌ Error completing task: " ++ e, [])
  | .ok tasks =>
    if h : 1 ≤ task_id ∧ task_id ≤ (tasks.length : Int) then
      let task := tasks.get ⟨(task_id - 1).toNat, by omega⟩
      match store.closeTask task.id with
      | .ok _ => ("✅ Task completed: " ++ task.content, [task.id])
      | .error e => ("❌ Error completing task: " ++ e, [task.id])
    else
      ("❌ Invalid task ID. Please use a number between 1 and " ++
        toString tasks.length, [])

/-- What one iteration of the session loop in `main` (main.py lines
149–161) does with the line read from the user, before any store or
router activity. -/
inductive LoopAction where
  | terminate
  | awaitAgain
  | route (line : String)
deriving DecidableEq

/-- One step of the session loop (main.py lines 151–161): strip the
line; an exit keyword (case-insensitive) breaks the loop; an empty
stripped line continues without invoking the agent; otherwise the
stripped line is forwarded to the agent executor. -/
def sessionStep (raw : String) : LoopAction :=
  let user_input := stripStr raw
  if lowerStr user_input = "exit" ∨ lowerStr user_input = "quit" ∨
      lowerStr user_input = "bye" then .terminate
  else if user_input = "" then .awaitAgain
  else .route user_input

/-! Helper lemmas about the character-level primitives. -/

theorem lowerChar_of_not_upper {c : Char} (h : ¬(65 ≤ c.toNat ∧ c.toNat ≤ 90)) :
    lowerChar c = c := by
  unfold lowerChar
  rw [if_neg h]

theorem pySpace_ofNat_shift {n : Nat} (h1 : 65 ≤ n) (h2 : n ≤ 90) :
    pySpace (Char.ofNat (n + 32)) = false := by
  interval_cases n <;> decide

theorem pySpace_lowerChar (c : Char) : pySpace (lowerChar c) = pySpace c := by
  unfold lowerChar
  split
  · rename_i h
    rw [pySpace_ofNat_shift h.1 h.2]
    have hc : pySpace c = false := by
      simp only [pySpace, Bool.or_eq_false_iff, decide_eq_false_iff_not]
      omega
    rw [hc]
  · rfl

theorem ndRangeStarts_spread : ∀ s ∈ ndRangeStarts, s = 48 ∨ 1632 ≤ s := by
  decide

theorem nd_not_upper {c : Char} (h : isNd c = true) :
    ¬(65 ≤ c.toNat ∧ c.toNat ≤ 90) := by
  unfold isNd digitVal? at h
  rcases hf : ndRangeStarts.find? (fun s => s ≤ c.toNat && c.toNat ≤ s + 9)
    with _ | s
  · rw [hf] at h; simp at h
  · have hmem := List.mem_of_find?_eq_some hf
    have hp := List.find?_some hf
    simp only [Bool.and_eq_true, decide_eq_true_eq] at hp
    rcases ndRangeStarts_spread s hmem with rfl | hs <;> omega

theorem lowerChar_of_nd {c : Char} (h : isNd c = true) : lowerChar c = c :=
  lowerChar_of_not_upper (nd_not_upper h)

theorem isNd_of_ascii {c : Char} (h1 : 48 ≤ c.toNat) (h2 : c.toNat ≤ 57) :
    isNd c = true := by
  have hfind : ndRangeStarts.find? (fun s => s ≤ c.toNat && c.toNat ≤ s + 9)
      = some 48 := by
    unfold ndRangeStarts
    apply List.find?_cons_of_pos
    simp only [Bool.and_eq_true, decide_eq_true_eq]
    omega
  unfold isNd digitVal?
  rw [hfind]
  rfl

theorem asciiNonZero_nd {c : Char} (h : asciiNonZero c = true) : isNd c = true := by
  simp only [asciiNonZero, Bool.and_eq_true, decide_eq_true_eq] at h
  exact isNd_of_ascii (by omega) h.2

theorem dayTok_chars {l : List Char} (h : dayTok l = true) :
    ∀ c ∈ l, isNd c = true ∨ c = ' ' := by
  intro c hc
  rcases l with _ | ⟨a, _ | ⟨b, _ | ⟨e, rest⟩⟩⟩
  · exact absurd hc (List.not_mem_nil c)
  · simp only [dayTok] at h
    rcases List.mem_singleton.mp hc with rfl
    exact Or.inl (asciiNonZero_nd h)
  · simp only [dayTok, Bool.or_eq_true, Bool.and_eq_true,
      decide_eq_true_eq] at h
    rcases List.mem_cons.mp hc with rfl | hc2
    · rcases h with ((⟨rfl, _⟩ | ⟨ha, _⟩) | ⟨rfl, _⟩) | ⟨rfl, _⟩
      · exact Or.inl (by decide)
      · rcases ha with rfl | rfl
        · exact Or.inl (by decide)
        · exact Or.inl (by decide)
      · exact Or.inl (by decide)
      · exact Or.inr rfl
    rcases List.mem_cons.mp hc2 with rfl | hc3
    · rcases h with ((⟨_, hb⟩ | ⟨_, hb⟩) | ⟨_, hb⟩) | ⟨_, hb⟩
      · rcases hb with rfl | rfl
        · exact Or.inl (by decide)
        · exact Or.inl (by decide)
      · exact Or.inl hb
      · exact Or.inl (asciiNonZero_nd hb)
      · exact Or.inl (asciiNonZero_nd hb)
    · exact absurd hc3 (List.not_mem_nil c)
  · simp [dayTok] at h

theorem monthTok_chars {l : List Char} (h : monthTok l = true) :
    ∀ c ∈ l, isNd c = true := by
  intro c hc
  rcases l with _ | ⟨a, _ | ⟨b, _ | ⟨e, rest⟩⟩⟩
  · exact absurd hc (List.not_mem_nil c)
  · simp only [monthTok] at h
    rcases List.mem_singleton.mp hc with rfl
    exact asciiNonZero_nd h
  · simp only [monthTok, Bool.or_eq_true, Bool.and_eq_true,
      decide_eq_true_eq] at h
    rcases List.mem_cons.mp hc with rfl | hc2
    · rcases h with ⟨rfl, _⟩ | ⟨rfl, _⟩
      · decide
      · decide
    rcases List.mem_cons.mp hc2 with rfl | hc3
    · rcases h with ⟨_, hb⟩ | ⟨_, hb⟩
      · rcases hb with (rfl | rfl) | rfl
        · decide
        · decide
        · decide
      · exact asciiNonZero_nd hb
    · exact absurd hc3 (List.not_mem_nil c)
  · simp [monthTok] at h

theorem yearTok_chars {l : List Char} (h : yearTok l = true) :
    ∀ c ∈ l, isNd c = true := by
  intro c hc
  rcases l with _ | ⟨a, _ | ⟨b, _ | ⟨e, _ | ⟨f, rest⟩⟩⟩⟩
  · exact absurd hc (List.not_mem_nil c)
  · simp [yearTok] at h
  · simp [yearTok] at h
  · simp [yearTok] at h
  · rcases rest with _ | ⟨g, rest2⟩
    · simp only [yearTok, Bool.and_eq_true] at h
      rcases List.mem_cons.mp hc with rfl | hc2
      · exact h.1.1.1
      rcases List.mem_cons.mp hc2 with rfl | hc3
      · exact h.1.1.2
      rcases List.mem_cons.mp hc3 with rfl | hc4
      · exact h.1.2
      rcases List.mem_cons.mp hc4 with rfl | hc5
      · exact h.2
      · exact absurd hc5 (List.not_mem_nil c)
    · simp [yearTok] at h

theorem dropWhile_eq_self_of_no_hit {α : Type} {p : α → Bool} :
    ∀ {l : List α}, (∀ c ∈ l, p c = false) → l.dropWhile p = l
  | [], _ => rfl
  | a :: t, h => by
    rw [List.dropWhile_cons, h a (List.mem_cons_self a t)]
    simp

theorem map_eq_self_of_fixed {α : Type} {f : α → α} :
    ∀ {l : List α}, (∀ c ∈ l, f c = c) → l.map f = l
  | [], _ => rfl
  | a :: t, h => by
    rw [List.map_cons, h a (List.mem_cons_self a t),
      map_eq_self_of_fixed (fun c hc => h c (List.mem_cons_of_mem a hc))]

theorem stripStr_eq_self {s : String} (h : ∀ c ∈ s.data, pySpace c = false) :
    stripStr s = s := by
  unfold stripStr
  rw [dropWhile_eq_self_of_no_hit h,
    dropWhile_eq_self_of_no_hit (fun c hc => h c (List.mem_reverse.mp hc)),
    List.reverse_reverse]

theorem data_of_lowerStr {s k : String} (h : lowerStr s = k) :
    s.data.map lowerChar = k.data := congrArg String.data h

theorem no_space_of_lower {s k : String} (h : lowerStr s = k)
    (hk : ∀ c ∈ k.data, pySpace c = false) :
    ∀ c ∈ s.data, pySpace c = false := by
  intro c hc
  have h1 : lowerChar c ∈ k.data := by
    rw [← data_of_lowerStr h]
    exact List.mem_map_of_mem lowerChar hc
  rw [← pySpace_lowerChar c]
  exact hk _ h1

theorem splitOnC_ne_nil (sep : Char) : ∀ l : List Char, splitOnC sep l ≠ []
  | [] => by simp [splitOnC]
  | c :: rest => by
    simp only [splitOnC]
    split
    · simp
    · split <;> simp

theorem mem_splitOnC {sep : Char} {l : List Char} {c : Char} (hc : c ∈ l) :
    c = sep ∨ ∃ p ∈ splitOnC sep l, c ∈ p := by
  induction l with
  | nil => exact absurd hc (List.not_mem_nil c)
  | cons a rest ih =>
    rcases List.mem_cons.mp hc with rfl | hr
    · by_cases ha : c = sep
      · exact Or.inl ha
      · right
        rcases hre : splitOnC sep rest with _ | ⟨p, ps⟩
        · exact absurd hre (splitOnC_ne_nil sep rest)
        · simp only [splitOnC, if_neg ha, hre]
          exact ⟨c :: p, List.mem_cons_self _ _, List.mem_cons_self _ _⟩
    · rcases ih hr with hsep | ⟨p, hp, hcp⟩
      · exact Or.inl hsep
      · right
        by_cases ha : a = sep
        · refine ⟨p, ?_, hcp⟩
          simp only [splitOnC, if_pos ha]
          exact List.mem_cons_of_mem _ hp
        · rcases hre : splitOnC sep rest with _ | ⟨q, qs⟩
          · exact absurd hre (splitOnC_ne_nil sep rest)
          · rw [hre] at hp
            simp only [splitOnC, if_neg ha, hre]
            rcases List.mem_cons.mp hp with rfl | hqs
            · exact ⟨a :: p, List.mem_cons_self _ _, List.mem_cons_of_mem _ hcp⟩
            · exact ⟨p, List.mem_cons_of_mem _ hqs, hcp⟩

theorem dmyOk_chars {s : String} (h : dmyOk s = true) :
    ∀ c ∈ s.data, isNd c = true ∨ c = ' ' ∨ c = '-' := by
  intro c hc
  unfold dmyOk at h
  rcases hsp : splitOnC '-' s.data with _ | ⟨d, rest⟩
  · rw [hsp] at h; simp at h
  rcases rest with _ | ⟨m, rest2⟩
  · rw [hsp] at h; simp at h
  rcases rest2 with _ | ⟨y, rest3⟩
  · rw [hsp] at h; simp at h
  rcases rest3 with _ | ⟨z, rest4⟩
  · rw [hsp] at h
    simp only [Bool.and_eq_true] at h
    have hd := dayTok_chars h.1.1.1.1
    have hm2 := monthTok_chars h.1.1.1.2
    have hy := yearTok_chars h.1.1.2
    rcases mem_splitOnC hc with hsep | ⟨p, hp, hcp⟩
    · exact Or.inr (Or.inr hsep)
    · rw [hsp] at hp
      rcases List.mem_cons.mp hp with rfl | hp2
      · rcases hd c hcp with hnd | hspc
        · exact Or.inl hnd
        · exact Or.inr (Or.inl hspc)
      rcases List.mem_cons.mp hp2 with rfl | hp3
      · exact Or.inl (hm2 c hcp)
      rcases List.mem_cons.mp hp3 with rfl | hp4
      · exact Or.inl (hy c hcp)
      · exact absurd hp4 (List.not_mem_nil p)
  · rw [hsp] at h; simp at h

theorem lowerStr_of_dmyOk {s : String} (h : dmyOk s = true) : lowerStr s = s := by
  have hm : s.data.map lowerChar = s.data :=
    map_eq_self_of_fixed (fun c hc => by
      rcases dmyOk_chars h c hc with hnd | rfl | rfl
      · exact lowerChar_of_nd hnd
      · exact lowerChar_of_not_upper (by decide)
      · exact lowerChar_of_not_upper (by decide))
  unfold lowerStr
  rw [hm]

theorem normalize_of_dmyOk {s : String} (h : dmyOk s = true) :
    normalize (some s) = some s := by
  have hne : s ≠ "" := by
    intro he; rw [he] at h; exact absurd h (by decide)
  have hl : lowerStr s = s := lowerStr_of_dmyOk h
  have ht1 : lowerStr s ≠ "today" := by
    rw [hl]; intro he; rw [he] at h; exact absurd h (by decide)
  have ht2 : lowerStr s ≠ "tomorrow" := by
    rw [hl]; intro he; rw [he] at h; exact absurd h (by decide)
  simp only [normalize]
  rw [if_neg hne, if_neg ht1, if_neg ht2, if_pos h]

/-- The due field of a task renders without an exception: the listing
loop's access `task.due.datetime.split('T')[1]` does not index out of
range. The store's wire format always carries the `T` separator, so this
holds for every task the real store can return. -/
def rendersOk (od : Option Due) : Bool :=
  match renderDue od with
  | .ok _ => true
  | .error _ => false

theorem rendersOk_iff {od : Option Due} (h : rendersOk od = true) :
    ∃ d, renderDue od = .ok d := by
  unfold rendersOk at h
  rcases hr : renderDue od with e | d
  · rw [hr] at h; exact absurd h (by simp)
  · exact ⟨d, rfl⟩

theorem renderLines_ok : ∀ (ts : List Task) (i : Nat),
    (∀ t ∈ ts, rendersOk t.due = true) →
    ∃ lines, renderLines i ts = .ok lines ∧
      lines.length = ts.length ∧
      ∀ j t, ts.get? j = some t → ∃ suffix,
        lines.get? j = some (toString (i + j) ++ ". " ++ t.content ++ suffix) := by
  intro ts
  induction ts with
  | nil =>
    intro i _
    exact ⟨[], rfl, rfl, fun j t hj => absurd hj (by simp)⟩
  | cons t rest ih =>
    intro i hwf
    obtain ⟨d, hd⟩ := rendersOk_iff (hwf t (List.mem_cons_self t rest))
    obtain ⟨lines2, hl2, hlen2, hidx2⟩ :=
      ih (i + 1) (fun u hu => hwf u (List.mem_cons_of_mem t hu))
    refine ⟨(toString i ++ ". " ++ t.content ++ d) :: lines2, ?_, ?_, ?_⟩
    · simp only [renderLines, hd, hl2]
      rfl
    · simp [hlen2]
    · intro j u hj
      cases j with
      | zero =>
        have hu : u = t := by
          simp only [List.get?_cons_zero] at hj
          exact (Option.some.inj hj).symm
        subst hu
        exact ⟨d, by simp⟩
      | succ j2 =>
        simp only [List.get?_cons_succ] at hj
        obtain ⟨suffix, hs⟩ := hidx2 j2 u hj
        have harith : i + (j2 + 1) = (i + 1) + j2 := by omega
        rw [List.get?_cons_succ, harith]
        exact ⟨suffix, hs⟩

theorem complete_task_resolves (store : Store) (tasks : List Task) (pid : Int)
    (t : Task) (hg : store.getTasks = .ok tasks) (h1 : 1 ≤ pid)
    (h2 : pid ≤ (tasks.length : Int))
    (ht : tasks.get? (pid - 1).toNat = some t) :
    complete_task store pid =
      match store.closeTask t.id with
      | .ok _ => ("✅ Task completed: " ++ t.content, [t.id])
      | .error e => ("❌ Error completing task: " ++ e, [t.id]) := by
  have hlt : (pid - 1).toNat < tasks.length := by omega
  have hget : tasks.get ⟨(pid - 1).toNat, hlt⟩ = t := by
    rw [List.get?_eq_get hlt] at ht
    exact Option.some.inj ht
  simp only [complete_task, hg]
  rw [dif_pos ⟨h1, h2⟩]
  simp only [hget]

/-- A store whose every call succeeds: `add_task` echoes the submitted
content and due string back (as the spec's "store that always succeeds"
test double), the active set holds three tasks, and closing succeeds. -/
def demoTask1 : Task := ⟨"a1", "Buy milk", none⟩

/-- Second demo task, with a due date carrying a time component. -/
def demoTask2 : Task :=
  ⟨"a2", "Call mom", some ⟨"2025-12-25", some "2025-12-25T14:30:00"⟩⟩

/-- Third demo task, with a due date and no time component. -/
def demoTask3 : Task := ⟨"a3", "Walk dog", some ⟨"2025-12-26", none⟩⟩

/-- Concrete always-succeeding store over the three demo tasks. -/
def demoStore : Store :=
  ⟨fun c d _ => .ok ⟨"id9", c, d.map (fun s => ⟨s, none⟩)⟩,
   .ok [demoTask1, demoTask2, demoTask3],
   fun _ => .ok ()⟩

/-- Concrete store whose fetch yields one task with a date-time due. -/
def timeDemoStore : Store :=
  ⟨fun c d _ => .ok ⟨"id9", c, d.map (fun s => ⟨s, none⟩)⟩,
   .ok [demoTask2],
   fun _ => .ok ()⟩

/-- Concrete store whose fetch yields no task. -/
def emptyStore : Store :=
  ⟨fun c d _ => .ok ⟨"id9", c, d.map (fun s => ⟨s, none⟩)⟩,
   .ok [],
   fun _ => .ok ()⟩

/-- Concrete store whose every call raises. -/
def failStore : Store :=
  ⟨fun _ _ _ => .error "network down",
   .error "network down",
   fun _ => .error "network down"⟩

/-- Concrete store that fetches the demo tasks but raises on close. -/
def closeFailStore : Store :=
  ⟨fun c d _ => .ok ⟨"id9", c, d.map (fun s => ⟨s, none⟩)⟩,
   .ok [demoTask1, demoTask2, demoTask3],
   fun _ => .error "boom"⟩

/-! Claim theorems. -/

/-- C1: the date normalization of the create operation maps an absent
input to absent, a case-insensitive `today`/`tomorrow` to that relative
keyword, a string parsing as a day-month-year date to itself unchanged,
and everything else to absent; `normalize` is a total function, so no
exception escapes on any input. -/
theorem normalize_spec (raw : Option String) :
    (raw = none → normalize raw = none) ∧
    (∀ s, raw = some s → lowerStr s = "today" → normalize raw = some "today") ∧
    (∀ s, raw = some s → lowerStr s = "tomorrow" →
      normalize raw = some "tomorrow") ∧
    (∀ s, raw = some s → dmyOk s = true → normalize raw = some s) ∧
    (∀ s, raw = some s → lowerStr s ≠ "today" → lowerStr s ≠ "tomorrow" →
      dmyOk s = false → normalize raw = none) := by
  refine ⟨fun h => by rw [h]; rfl, ?_, ?_, ?_, ?_⟩
  · intro s hr h1
    subst hr
    have h0 : s ≠ "" := by
      intro he; subst he; exact absurd h1 (by decide)
    simp only [normalize]
    rw [if_neg h0, if_pos h1]
  · intro s hr h1
    subst hr
    have h0 : s ≠ "" := by
      intro he; subst he; exact absurd h1 (by decide)
    by_cases h2 : lowerStr s = "today"
    · exact absurd (h2.symm.trans h1) (by decide)
    · simp only [normalize]
      rw [if_neg h0, if_neg h2, if_pos h1]
  · intro s hr h
    subst hr
    exact normalize_of_dmyOk h
  · intro s hr h1 h2 h3
    subst hr
    by_cases h0 : s = ""
    · subst h0; rfl
    · simp only [normalize]
      rw [if_neg h0, if_neg h1, if_neg h2, if_neg (by rw [h3]; simp)]

/-- Witness for C1 at concrete inputs matching the spec's examples. -/
theorem normalize_spec_witness :
    normalize (some "TOMORROW") = some "tomorrow" ∧
    normalize (some "25-12-2025") = some "25-12-2025" ∧
    normalize (some "not-a-date") = none ∧
    normalize none = none :=
  ⟨(normalize_spec (some "TOMORROW")).2.2.1 "TOMORROW" rfl (by decide),
   (normalize_spec (some "25-12-2025")).2.2.2.1 "25-12-2025" rfl (by decide),
   (normalize_spec (some "not-a-date")).2.2.2.2 "not-a-date" rfl (by decide)
     (by decide) (by decide),
   (normalize_spec none).1 rfl⟩

/-- C10: normalization is idempotent — each of its possible outputs
(absent, the lowercase relative keywords, and an unchanged valid date
string) is a fixed point of `normalize`. -/
theorem normalize_idempotent :
    ∀ x : Option String, normalize (normalize x) = normalize x := by
  intro x
  cases x with
  | none => rfl
  | some s =>
    by_cases h0 : s = ""
    · subst h0; rfl
    by_cases h1 : lowerStr s = "today"
    · rw [show normalize (some s) = some "today" by
        simp only [normalize]; rw [if_neg h0, if_pos h1]]
      decide
    by_cases h2 : lowerStr s = "tomorrow"
    · rw [show normalize (some s) = some "tomorrow" by
        simp only [normalize]; rw [if_neg h0, if_neg h1, if_pos h2]]
      decide
    by_cases h3 : dmyOk s = true
    · have he := normalize_of_dmyOk h3
      rw [he]
      exact he
    · rw [show normalize (some s) = none by
        simp only [normalize]
        rw [if_neg h0, if_neg h1, if_neg h2, if_neg h3]]
      rfl

/-- C8: one step of the session loop terminates on a case-insensitive
exit keyword without reaching the intent router, stays awaiting on an
empty line without reaching the router, and only forwards a line to the
router when it is non-empty and not an exit keyword. -/
theorem session_loop_spec (s : String) :
    ((lowerStr s = "exit" ∨ lowerStr s = "quit" ∨ lowerStr s = "bye") →
      sessionStep s = .terminate) ∧
    (s = "" → sessionStep s = .awaitAgain) ∧
    (∀ line, sessionStep s = .route line →
      s ≠ "" ∧ lowerStr s ≠ "exit" ∧ lowerStr s ≠ "quit" ∧
        lowerStr s ≠ "bye") := by
  have hterm : (lowerStr s = "exit" ∨ lowerStr s = "quit" ∨ lowerStr s = "bye") →
      sessionStep s = .terminate := by
    intro h
    have hns : ∀ c ∈ s.data, pySpace c = false := by
      rcases h with h | h | h
      · exact no_space_of_lower h (by decide)
      · exact no_space_of_lower h (by decide)
      · exact no_space_of_lower h (by decide)
    have hstrip : stripStr s = s := stripStr_eq_self hns
    simp only [sessionStep, hstrip]
    rw [if_pos h]
  refine ⟨hterm, ?_, ?_⟩
  · intro h; subst h; decide
  · intro line h
    refine ⟨?_, ?_, ?_, ?_⟩
    · intro he
      subst he
      rw [show sessionStep "" = LoopAction.awaitAgain from by decide] at h
      exact LoopAction.noConfusion h
    · intro hkw
      rw [hterm (Or.inl hkw)] at h
      exact LoopAction.noConfusion h
    · intro hkw
      rw [hterm (Or.inr (Or.inl hkw))] at h
      exact LoopAction.noConfusion h
    · intro hkw
      rw [hterm (Or.inr (Or.inr hkw))] at h
      exact LoopAction.noConfusion h

/-- Witness for C8: `"EXIT"` terminates, the empty line stays awaiting,
and a routed line is non-empty and not an exit keyword. -/
theorem session_loop_spec_witness :
    sessionStep "EXIT" = LoopAction.terminate ∧
    sessionStep "" = LoopAction.awaitAgain ∧
    ("add milk" ≠ "" ∧ lowerStr "add milk" ≠ "exit" ∧
      lowerStr "add milk" ≠ "quit" ∧ lowerStr "add milk" ≠ "bye") :=
  ⟨(session_loop_spec "EXIT").1 (Or.inl (by decide)),
   (session_loop_spec "").2.1 rfl,
   (session_loop_spec "add milk").2.2 "add milk" (by decide)⟩

/-- C2: with a fresh fetch of `n` tasks and `1 ≤ positionalId ≤ n`, the
complete operation issues exactly one close request, carrying the store
identifier of the task at that 1-based position, and (when the close
succeeds) returns a success string naming that task's content. -/
theorem complete_task_in_range (store : Store) (tasks : List Task) (pid : Int)
    (t : Task) (hg : store.getTasks = .ok tasks) (h1 : 1 ≤ pid)
    (h2 : pid ≤ (tasks.length : Int))
    (ht : tasks.get? (pid - 1).toNat = some t)
    (hc : store.closeTask t.id = .ok ()) :
    complete_task store pid = ("✅ Task completed: " ++ t.content, [t.id]) := by
  rw [complete_task_resolves store tasks pid t hg h1 h2 ht, hc]

/-- Witness for C2: position 2 of the three demo tasks closes exactly
the second task's identifier and names its content. -/
theorem complete_task_in_range_witness :
    complete_task demoStore 2 = ("✅ Task completed: Call mom", ["a2"]) := by
  exact complete_task_in_range demoStore [demoTask1, demoTask2, demoTask3] 2
    demoTask2 rfl (by decide) (by decide) (by decide) rfl

/-- C3: with a fresh fetch of `n` tasks and a positional identifier
outside `[1, n]`, the complete operation issues no close request and
returns a failure string citing the valid range `1` to `n` of the
current fetch. -/
theorem complete_task_out_of_range (store : Store) (tasks : List Task)
    (pid : Int) (hg : store.getTasks = .ok tasks)
    (hout : ¬(1 ≤ pid ∧ pid ≤ (tasks.length : Int))) :
    complete_task store pid =
      ("❌ Invalid task ID. Please use a number between 1 and " ++
        toString tasks.length, []) := by
  simp only [complete_task, hg]
  rw [dif_neg hout]

/-- Witness for C3: positions 0 and 4 against the three demo tasks both
fail citing the range 1–3, with no close request. -/
theorem complete_task_out_of_range_witness :
    complete_task demoStore 0 =
      ("❌ Invalid task ID. Please use a number between 1 and 3", []) ∧
    complete_task demoStore 4 =
      ("❌ Invalid task ID. Please use a number between 1 and 3", []) := by
  constructor
  · have h := complete_task_out_of_range demoStore
      [demoTask1, demoTask2, demoTask3] 0 rfl (by omega)
    exact h
  · have h := complete_task_out_of_range demoStore
      [demoTask1, demoTask2, demoTask3] 4 rfl (by decide)
    exact h

/-- C9: with a fresh fetch that is empty, the complete operation fails
for every positional identifier, issues no close request, and the
failure string cites the degenerate range between 1 and 0. -/
theorem complete_task_empty_fetch (store : Store) (pid : Int)
    (hg : store.getTasks = .ok []) :
    complete_task store pid =
      ("❌ Invalid task ID. Please use a number between 1 and 0", []) := by
  simp only [complete_task, hg, List.length_nil]
  rw [dif_neg (by omega)]
  rfl

/-- Witness for C9: the empty store rejects positional identifier 1 with
the degenerate range. -/
theorem complete_task_empty_fetch_witness :
    complete_task emptyStore 1 =
      ("❌ Invalid task ID. Please use a number between 1 and 0", []) :=
  complete_task_empty_fetch emptyStore 1 rfl

/-- C4: every store error is converted at the operation boundary into a
failure string embedding the error's text — for `add_task` on a failed
create, for `list_tasks` and `complete_task` on a failed fetch, and for
`complete_task` on a failed close (which still issues that one close
request). The three operations are total functions into `String`, so no
exception crosses their boundary. -/
theorem ops_error_conversion (store : Store) (desc : String)
    (due : Option String) (pr pid : Int) (e : String) :
    (store.addTask desc (normalize due) pr = .error e →
      add_task store desc due pr = "❌ Error adding task: " ++ e) ∧
    (store.getTasks = .error e →
      list_tasks store = "❌ Error fetching tasks: " ++ e ∧
      complete_task store pid = ("❌ Error completing task: " ++ e, [])) ∧
    (∀ tasks t, store.getTasks = .ok tasks → 1 ≤ pid →
      pid ≤ (tasks.length : Int) → tasks.get? (pid - 1).toNat = some t →
      store.closeTask t.id = .error e →
      complete_task store pid = ("❌ Error completing task: " ++ e, [t.id])) := by
  refine ⟨?_, ?_, ?_⟩
  · intro h
    simp only [add_task, h]
  · intro h
    exact ⟨by simp only [list_tasks, h], by simp only [complete_task, h]⟩
  · intro tasks t hg h1 h2 ht hc
    rw [complete_task_resolves store tasks pid t hg h1 h2 ht, hc]

/-- Witness for C4: the always-raising store is answered with failure
strings by all three operations, and a close-time error is caught after
the close request went out. -/
theorem ops_error_conversion_witness :
    add_task failStore "Buy milk" (some "today") 1 =
      "❌ Error adding task: network down" ∧
    list_tasks failStore = "❌ Error fetching tasks: network down" ∧
    complete_task failStore 1 =
      ("❌ Error completing task: network down", []) ∧
    complete_task closeFailStore 2 =
      ("❌ Error completing task: boom", ["a2"]) := by
  refine ⟨?_, ?_, ?_, ?_⟩
  · exact (ops_error_conversion failStore "Buy milk" (some "today") 1 1
      "network down").1 rfl
  · exact ((ops_error_conversion failStore "Buy milk" (some "today") 1 1
      "network down").2.1 rfl).1
  · exact ((ops_error_conversion failStore "Buy milk" (some "today") 1 1
      "network down").2.1 rfl).2
  · exact (ops_error_conversion closeFailStore "Buy milk" (some "today") 1 2
      "boom").2.2 [demoTask1, demoTask2, demoTask3] demoTask2 rfl (by decide)
      (by decide) (by decide) rfl

/-- C5: the list operation returns the literal no-tasks message on an
empty fetch, and otherwise a newline-joined header line followed by
exactly `n` lines numbered sequentially from 1 in fetch order, each
carrying the corresponding task's content (the due fields are assumed
to render, i.e. date-times carry the store's `T` separator). -/
theorem list_tasks_spec (store : Store) (tasks : List Task)
    (hg : store.getTasks = .ok tasks)
    (hwf : ∀ t ∈ tasks, rendersOk t.due = true) :
    (tasks = [] → list_tasks store = "No tasks found in your Todoist account.") ∧
    (tasks ≠ [] → ∃ lines,
      list_tasks store = String.intercalate "\n" ("📋 Your tasks:" :: lines) ∧
      lines.length = tasks.length ∧
      ∀ j t, tasks.get? j = some t → ∃ suffix,
        lines.get? j = some (toString (j + 1) ++ ". " ++ t.content ++ suffix)) := by
  constructor
  · intro h
    subst h
    simp [list_tasks, hg]
  · intro hne
    obtain ⟨lines, hl, hlen, hidx⟩ := renderLines_ok tasks 1 hwf
    refine ⟨lines, ?_, hlen, ?_⟩
    · simp only [list_tasks, hg, if_neg hne, hl]
    · intro j t hj
      obtain ⟨suffix, hs⟩ := hidx j t hj
      rw [Nat.add_comm 1 j] at hs
      exact ⟨suffix, hs⟩

/-- Witness for C5: the empty store yields the literal no-tasks message,
and the three demo tasks yield the header plus three numbered lines in
fetch order. -/
theorem list_tasks_spec_witness :
    list_tasks emptyStore = "No tasks found in your Todoist account." ∧
    ∃ lines,
      list_tasks demoStore =
        String.intercalate "\n" ("📋 Your tasks:" :: lines) ∧
      lines.length = 3 ∧
      ∀ j t, ([demoTask1, demoTask2, demoTask3] : List Task).get? j = some t →
        ∃ suffix,
          lines.get? j = some (toString (j + 1) ++ ". " ++ t.content ++ suffix) := by
  constructor
  · exact (list_tasks_spec emptyStore [] rfl (by decide)).1 rfl
  · obtain ⟨lines, hl, hlen, hidx⟩ :=
      (list_tasks_spec demoStore [demoTask1, demoTask2, demoTask3] rfl
        (by decide)).2 (by decide)
    exact ⟨lines, hl, hlen, hidx⟩

/-- C6: a listing line's time is obtained by splitting the stored
date-time string on its `T` separator and taking the first five
characters of the time portion; a due date without a time component
shows only the date; in particular the date-time
`"2025-12-25T14:30:00"` renders its time as `"14:30"` in the list
operation's output. -/
theorem render_time_spec :
    (∀ d dt p0 p1 rest, dt ≠ "" → splitOnC 'T' dt.data = p0 :: p1 :: rest →
      renderDue (some ⟨d, some dt⟩) =
        .ok (" (Due: " ++ d ++ " " ++ (⟨p1.take 5⟩ : String) ++ ")")) ∧
    (∀ d, renderDue (some ⟨d, none⟩) = .ok (" (Due: " ++ d ++ ")")) ∧
    list_tasks timeDemoStore =
      "📋 Your tasks:\n1. Call mom (Due: 2025-12-25 14:30)" := by
  refine ⟨?_, fun d => rfl, by decide⟩
  intro d dt p0 p1 rest hne hsp
  simp only [renderDue, if_neg hne, hsp, List.get?_cons_succ, List.get?_cons_zero]

/-- Witness for C6: the spec's example date-time renders as the date
followed by `14:30`. -/
theorem render_time_spec_witness :
    renderDue (some ⟨"2025-12-25", some "2025-12-25T14:30:00"⟩) =
      .ok " (Due: 2025-12-25 14:30)" := by
  exact render_time_spec.1 "2025-12-25" "2025-12-25T14:30:00"
    "2025-12-25".data "14:30:00".data [] (by decide) (by decide)

/-- C7: on store success the create operation returns a success string
embedding the stored content and the stored resolved due date (or the
explicit no-due-date marker when the stored task has none); against the
always-succeeding echo store, `create("Buy milk", "today", 1)` yields a
success string containing `"Buy milk"` and `"today"`. -/
theorem add_task_success_spec (store : Store) (desc : String)
    (due : Option String) (pr : Int) (task : Task)
    (h : store.addTask desc (normalize due) pr = .ok task) :
    add_task store desc due pr =
      "✅ Task added: " ++ task.content ++ " (Due: " ++
        (match task.due with
         | some d => d.date
         | none => "No due date") ++ ")" ∧
    add_task demoStore "Buy milk" (some "today") 1 =
      "✅ Task added: Buy milk (Due: today)" ∧
    "Buy milk".data <:+: (add_task demoStore "Buy milk" (some "today") 1).data ∧
    "today".data <:+: (add_task demoStore "Buy milk" (some "today") 1).data := by
  refine ⟨?_, by decide, by decide, by decide⟩
  simp only [add_task, h]

/-- Witness for C7: the echo store stores `Buy milk` due `today`, and
the returned success string embeds both. -/
theorem add_task_success_spec_witness :
    add_task demoStore "Buy milk" (some "today") 1 =
      "✅ Task added: " ++ "Buy milk" ++ " (Due: " ++ "today" ++ ")" ∧
    "Buy milk".data <:+: (add_task demoStore "Buy milk" (some "today") 1).data ∧
    "today".data <:+: (add_task demoStore "Buy milk" (some "today") 1).data := by
  have h := add_task_success_spec demoStore "Buy milk" (some "today") 1
    ⟨"id9", "Buy milk", some ⟨"today", none⟩⟩ rfl
  exact ⟨h.1, h.2.2.1, h.2.2.2⟩

end TodoistAi
